import Mathlib

set_option maxRecDepth 100000

/-!
# Verification of the KBS attestation-service core

Shallow embedding of `attestation-service/src/lib.rs` (the evaluation
pipeline: `accumulate_hash`, `evaluate`, `get_reference_data`,
`set_policy`, `register_reference_value`) and of the `Attest` trait in
`api/src/attestation/mod.rs`, together with theorems checking the
natural-language specification against it.

Bytes are modelled as natural numbers below 256 in a `List Nat`; the
SHA-384 digest computation used by `accumulate_hash` (the `sha2` crate's
`Sha384`) is embedded executably, so concrete digests can be evaluated
inside proofs.
-/

/-- Two to the sixty-fourth power, the modulus of 64-bit words. -/
def w64mod : Nat := 18446744073709551616

/-- Truncate to a 64-bit word. -/
def w64 (x : Nat) : Nat := x % w64mod

/-- Right rotation of a 64-bit word by `n` bits. -/
def rotr64 (n x : Nat) : Nat := w64 ((x >>> n) ||| (x <<< (64 - n)))

/-- Bitwise complement of a 64-bit word. -/
def not64 (x : Nat) : Nat := 18446744073709551615 ^^^ x

/-- SHA-512 big Sigma-0. -/
def bSig0 (x : Nat) : Nat := (rotr64 28 x) ^^^ (rotr64 34 x) ^^^ (rotr64 39 x)

/-- SHA-512 big Sigma-1. -/
def bSig1 (x : Nat) : Nat := (rotr64 14 x) ^^^ (rotr64 18 x) ^^^ (rotr64 41 x)

/-- SHA-512 small sigma-0. -/
def sSig0 (x : Nat) : Nat := (rotr64 1 x) ^^^ (rotr64 8 x) ^^^ (x >>> 7)

/-- SHA-512 small sigma-1. -/
def sSig1 (x : Nat) : Nat := (rotr64 19 x) ^^^ (rotr64 61 x) ^^^ (x >>> 6)

/-- SHA-512 choice function. -/
def ch64 (x y z : Nat) : Nat := (x &&& y) ^^^ ((not64 x) &&& z)

/-- SHA-512 majority function. -/
def maj64 (x y z : Nat) : Nat := (x &&& y) ^^^ (x &&& z) ^^^ (y &&& z)

/-- The 80 SHA-512 round constants of FIPS 180-4 (the first 64 bits of the
fractional parts of the cube roots of the first 80 primes), as decimal
naturals. -/
def sha512K : List Nat :=
  [4794697086780616226, 8158064640168781261, 13096744586834688815,
   16840607885511220156, 4131703408338449720, 6480981068601479193,
   10538285296894168987, 12329834152419229976, 15566598209576043074,
   1334009975649890238, 2608012711638119052, 6128411473006802146,
   8268148722764581231, 9286055187155687089, 11230858885718282805,
   13951009754708518548, 16472876342353939154, 17275323862435702243,
   1135362057144423861, 2597628984639134821, 3308224258029322869,
   5365058923640841347, 6679025012923562964, 8573033837759648693,
   10970295158949994411, 12119686244451234320, 12683024718118986047,
   13788192230050041572, 14330467153632333762, 15395433587784984357,
   489312712824947311, 1452737877330783856, 2861767655752347644,
   3322285676063803686, 5560940570517711597, 5996557281743188959,
   7280758554555802590, 8532644243296465576, 9350256976987008742,
   10552545826968843579, 11727347734174303076, 12113106623233404929,
   14000437183269869457, 14369950271660146224, 15101387698204529176,
   15463397548674623760, 17586052441742319658, 1182934255886127544,
   1847814050463011016, 2177327727835720531, 2830643537854262169,
   3796741975233480872, 4115178125766777443, 5681478168544905931,
   6601373596472566643, 7507060721942968483, 8399075790359081724,
   8693463985226723168, 9568029438360202098, 10144078919501101548,
   10430055236837252648, 11840083180663258601, 13761210420658862357,
   14299343276471374635, 14566680578165727644, 15097957966210449927,
   16922976911328602910, 17689382322260857208, 500013540394364858,
   748580250866718886, 1242879168328830382, 1977374033974150939,
   2944078676154940804, 3659926193048069267, 4368137639120453308,
   4836135668995329356, 5532061633213252278, 6448918945643986474,
   6902733635092675308, 7801388544844847127]

/-- The SHA-384 initial hash state of FIPS 180-4 (eight 64-bit words, the
ninth through sixteenth primes' square-root fractional bits), as decimal
naturals. -/
def sha384IV : List Nat :=
  [14680500436340154072, 7105036623409894663,
   10473403895298186519, 1526699215303891257,
   7436329637833083697, 10282925794625328401,
   15784041429090275239, 5167115440072839076]

/-- Extend a message schedule by one word (SHA-512 recurrence). -/
def extendW (w : List Nat) : List Nat :=
  let n := w.length
  w ++ [w64 (sSig1 (w.getD (n - 2) 0) + w.getD (n - 7) 0 +
             sSig0 (w.getD (n - 15) 0) + w.getD (n - 16) 0)]

/-- Apply a function `n` times. -/
def iterateN {α : Type} (f : α → α) : Nat → α → α
  | 0, a => a
  | n + 1, a => iterateN f n (f a)

/-- The full 80-word message schedule from a 16-word block. -/
def schedule (block : List Nat) : List Nat := iterateN extendW 64 block

/-- One SHA-512 round: transform the eight-word working state with round
constant `k` and schedule word `w`. -/
def sha512Round (st : List Nat) (kw : Nat × Nat) : List Nat :=
  match st with
  | [a, b, c, d, e, f, g, h] =>
    let t1 := w64 (h + bSig1 e + ch64 e f g + kw.1 + kw.2)
    let t2 := w64 (bSig0 a + maj64 a b c)
    [w64 (t1 + t2), a, b, c, w64 (d + t1), e, f, g]
  | other => other

/-- Compress one 16-word block into the running hash state. -/
def sha512Compress (st : List Nat) (block : List Nat) : List Nat :=
  let final := (sha512K.zip (schedule block)).foldl sha512Round st
  st.zipWith (fun x y => w64 (x + y)) final

/-- The `x`'s big-endian byte representation on `n` bytes. -/
def toBytesBE (n x : Nat) : List Nat :=
  (List.range n).map (fun i => (x >>> (8 * (n - 1 - i))) % 256)

/-- A big-endian byte list read as a natural number. -/
def bytesToNat (bs : List Nat) : Nat := bs.foldl (fun acc b => acc * 256 + b) 0

/-- Split a list into chunks of `n` (fuel-based so it computes by kernel
reduction). -/
def chunksOfAux {α : Type} (n : Nat) : Nat → List α → List (List α)
  | 0, _ => []
  | _, [] => []
  | fuel + 1, l@(_ :: _) => l.take n :: chunksOfAux n fuel (l.drop n)

/-- Split a list into chunks of `n` elements. -/
def chunksOf {α : Type} (n : Nat) (l : List α) : List (List α) :=
  chunksOfAux n l.length l

/-- SHA padding: append `0x80`, zero fill, and the 128-bit big-endian bit
length, reaching a multiple of 128 bytes. -/
def sha512Pad (msg : List Nat) : List Nat :=
  let z := (128 - ((msg.length + 17) % 128)) % 128
  msg ++ [128] ++ List.replicate z 0 ++ toBytesBE 16 (8 * msg.length)

/-- SHA-384 of a byte list: pad, compress each 1024-bit block, and emit the
first six state words as 48 big-endian bytes (384 bits). -/
def sha384 (msg : List Nat) : List Nat :=
  let blocks := (chunksOf 128 (sha512Pad msg)).map (fun c => (chunksOf 8 c).map bytesToNat)
  let st := blocks.foldl sha512Compress sha384IV
  toBytesBE 8 (st.getD 0 0) ++ toBytesBE 8 (st.getD 1 0) ++ toBytesBE 8 (st.getD 2 0) ++
  toBytesBE 8 (st.getD 3 0) ++ toBytesBE 8 (st.getD 4 0) ++ toBytesBE 8 (st.getD 5 0)

/-- A streaming SHA-384 context, as the bytes fed so far (the mathematical
content of the `sha2` crate's incremental `Sha384` hasher). -/
structure Sha384Ctx where
  buf : List Nat
deriving DecidableEq

/-- The fresh context, `Sha384::new()`. -/
def Sha384Ctx.new : Sha384Ctx := ⟨[]⟩

/-- Feed bytes into the streaming context, `hasher.update(m)`. -/
def Sha384Ctx.update (c : Sha384Ctx) (m : List Nat) : Sha384Ctx := ⟨c.buf ++ m⟩

/-- Finalize the context, `hasher.finalize()`: the digest of everything fed
so far. -/
def Sha384Ctx.finalize (c : Sha384Ctx) : List Nat := sha384 c.buf

/-- Embedding of `AttestationService::accumulate_hash` from
`attestation-service/src/lib.rs`: `None` on an empty material list,
otherwise one streaming SHA-384 over all materials in order, finalized
once. -/
def accumulate_hash (materials : List (List Nat)) : Option (List Nat) :=
  if materials.isEmpty then none
  else some ((materials.foldl Sha384Ctx.update Sha384Ctx.new).finalize)

/-- Modelled from the spec: the closed TEE tag (`kbs_types::Tee`, a
dependency crate not under `src/`) — "a closed tag identifying the TEE
technology (e.g., one of a fixed enumerated set)". -/
inductive Tee
  | azSnpVtpm
  | sev
  | sgx
  | snp
  | tdx
  | sample
  | cca
  | csv
deriving DecidableEq

/-- Modelled from the spec: the serialized name of a TEE variant, the
namespace prefix used by the claims normalizer. -/
def teeName : Tee → String
  | Tee.azSnpVtpm => "azsnpvtpm"
  | Tee.sev => "sev"
  | Tee.sgx => "sgx"
  | Tee.snp => "snp"
  | Tee.tdx => "tdx"
  | Tee.sample => "sample"
  | Tee.cca => "cca"
  | Tee.csv => "csv"

mutual
/-- Modelled from the spec: `RawClaims`, "the nested, TEE-specific structure
returned by a Verifier — a tree of string/number/blob leaves under
arbitrarily nested composite nodes" (a `serde_json::Value`). -/
inductive JValue
  | str (s : String)
  | num (n : Int)
  | bool (b : Bool)
  | null
  | arr (xs : JList)
  | obj (kvs : JObj)

/-- A list of JSON child nodes (array elements). -/
inductive JList
  | nil
  | cons (v : JValue) (tl : JList)

/-- A list of JSON object members. -/
inductive JObj
  | nil
  | cons (k : String) (v : JValue) (tl : JObj)
end

mutual
/-- The leaves of a `RawClaims` tree, each with its path from root to leaf
(array nodes contribute their positional index as a segment) and its leaf
value rendered as a string. -/
def leafPaths : JValue → List (List String × String)
  | JValue.str s => [([], s)]
  | JValue.num n => [([], toString n)]
  | JValue.bool b => [([], cond b "true" "false")]
  | JValue.null => [([], "null")]
  | JValue.arr xs => leafPathsArr 0 xs
  | JValue.obj kvs => leafPathsObj kvs

/-- Leaves of the elements of an array node, their paths extended with the
element's positional index. -/
def leafPathsArr (i : Nat) : JList → List (List String × String)
  | JList.nil => []
  | JList.cons v tl =>
    (leafPaths v).map (fun pv => (toString i :: pv.1, pv.2)) ++ leafPathsArr (i + 1) tl

/-- Leaves of the members of an object node, their paths extended with the
member's key. -/
def leafPathsObj : JObj → List (List String × String)
  | JObj.nil => []
  | JObj.cons k v tl =>
    (leafPaths v).map (fun pv => (k :: pv.1, pv.2)) ++ leafPathsObj tl
end

/-- Join path segments with the stable separator `"."`. -/
def joinPath : List String → String
  | [] => ""
  | [s] => s
  | s :: tl1 :: tl => s ++ "." ++ joinPath (tl1 :: tl)

/-- The error taxonomy of the evaluation pipeline (spec section 7). -/
inductive AsError
  | unsupportedTee
  | verificationFailed (detail : String)
  | malformedClaims (detail : String)
  | referenceStoreUnavailable (detail : String)
  | policyEvaluationFailed (detail : String)
  | tokenIssuanceFailed (detail : String)
deriving DecidableEq

/-- Modelled from the spec: `crate::utils::flatten_claims` (module `utils`
is not under `src/`) — "recursively walks RawClaims; each leaf becomes one
entry keyed by the path from root to leaf, with path segments joined by a
stable separator, the entire key prefixed by the TeeVariant name";
composite array nodes encode their positional index into the path. Every
leaf of the modelled `RawClaims` tree is representable as a string, so the
`MalformedClaims` failure case never fires here. -/
def flatten_claims (tee : Tee) (raw : JValue) :
    Except AsError (List (String × String)) :=
  Except.ok ((leafPaths raw).map (fun pv => (joinPath (teeName tee :: pv.1), pv.2)))

/-- One entry of the `"evaluation-reports"` array of the token claims:
`json!({"policy-id": k, "passed": v.0, "evaluation-report": v.1})`. -/
structure EvalReport where
  policyId : String
  passed : Bool
  report : String
deriving DecidableEq

/-- The token claims object built by `evaluate`:
`json!({"policy-ids": …, "tcb-status": …, "evaluation-reports": …})`. -/
structure TokenClaims where
  policyIds : List String
  tcbStatus : List (String × String)
  evaluationReports : List EvalReport
deriving DecidableEq

/-- An observable invocation of a downstream collaborator during one
`evaluate` call: the verifier, one reference-value lookup, the policy
engine, or the token broker (with the exact claims payload handed to it). -/
inductive Event
  | verifierEvaluated
  | referenceLookup (key : String)
  | policyEvaluated
  | tokenIssue (payload : TokenClaims)
deriving DecidableEq

/-- A TEE verifier capability: evidence, optional runtime-binding digest,
optional init-data digest, returning raw claims or a failure detail. -/
def VerifierFun : Type :=
  List Nat → Option (List Nat) → Option (List Nat) → Except String JValue

/-- The service state of `AttestationService` from
`attestation-service/src/lib.rs`, with each external collaborator
(`verifier::to_verifier`, `rvps.get_digests`, `policy_engine.evaluate`,
`token_broker.issue`) as the function the orchestrator calls. -/
structure AttestationService where
  to_verifier : Tee → Option VerifierFun
  get_digests : String → Except String (List String)
  policy_evaluate : List (String × List String) → String → List String →
    Except String (List (String × (Bool × String)))
  issue : TokenClaims → Except String String

/-- Insert into an association list with `HashMap::insert` semantics:
replace the value of an existing key, otherwise append the new entry. -/
def insertA (m : List (String × List String)) (k : String) (v : List String) :
    List (String × List String) :=
  match m with
  | [] => [(k, v)]
  | (k2, v2) :: tl => if k2 = k then (k, v) :: tl else (k2, v2) :: insertA tl k v

/-- Look a key up in an association list. -/
def lookupA (m : List (String × List String)) (k : String) : Option (List String) :=
  match m with
  | [] => none
  | (k2, v) :: tl => if k2 = k then some v else lookupA tl k

/-- The loop body of `AttestationService::get_reference_data`: for each
claim key call `rvps.get_digests`, abort on a backend failure, otherwise
insert the (possibly empty) digest list under that key; also record each
lookup as an event. -/
def grdGo (svc : AttestationService) (acc : List (String × List String)) :
    List String → Except AsError (List (String × List String)) × List Event
  | [] => (Except.ok acc, [])
  | k :: ks =>
    match svc.get_digests k with
    | Except.error e =>
      (Except.error (AsError.referenceStoreUnavailable e), [Event.referenceLookup k])
    | Except.ok v =>
      ((grdGo svc (insertA acc k v) ks).1,
       Event.referenceLookup k :: (grdGo svc (insertA acc k v) ks).2)

/-- Embedding of `AttestationService::get_reference_data` from
`attestation-service/src/lib.rs`: fold the claim keys into a fresh map. -/
def get_reference_data (svc : AttestationService) (tcb_claims : List String) :
    Except AsError (List (String × List String)) × List Event :=
  grdGo svc [] tcb_claims

/-- A stand-in for `serde_json::to_string` on the flattened claims map: the
pipeline only threads this string through to the policy engine. -/
def serdeJsonToString (l : List (String × String)) : String :=
  String.intercalate "," (l.map (fun kv => kv.1 ++ ":" ++ kv.2))

/-- Embedding of `AttestationService::evaluate` from
`attestation-service/src/lib.rs`: select the verifier by TEE variant,
accumulate the two binding digests, verify the evidence, flatten the
claims, resolve reference values, run the policy engine, and issue a token
over the aggregated claims payload. The second component records which
downstream collaborators were invoked. -/
def evaluate (svc : AttestationService) (evidence : List Nat) (tee : Tee)
    (runtime_data : List (List Nat)) (init_data : List (List Nat))
    (policy_ids : List String) : Except AsError String × List Event :=
  match svc.to_verifier tee with
  | none => (Except.error AsError.unsupportedTee, [])
  | some verifier =>
    let report_data := accumulate_hash runtime_data
    let init_data_hash := accumulate_hash init_data
    match verifier evidence report_data init_data_hash with
    | Except.error e =>
      (Except.error (AsError.verificationFailed e), [Event.verifierEvaluated])
    | Except.ok claims_from_tee_evidence =>
      match flatten_claims tee claims_from_tee_evidence with
      | Except.error e => (Except.error e, [Event.verifierEvaluated])
      | Except.ok flattened_claims =>
        let tcb_json := serdeJsonToString flattened_claims
        let rd := get_reference_data svc (flattened_claims.map Prod.fst)
        match rd.1 with
        | Except.error e => (Except.error e, Event.verifierEvaluated :: rd.2)
        | Except.ok reference_data_map =>
          match svc.policy_evaluate reference_data_map tcb_json policy_ids with
          | Except.error e =>
            (Except.error (AsError.policyEvaluationFailed e),
             Event.verifierEvaluated :: rd.2 ++ [Event.policyEvaluated])
          | Except.ok evaluation_report =>
            let token_claims : TokenClaims :=
              { policyIds := policy_ids,
                tcbStatus := flattened_claims,
                evaluationReports := evaluation_report.map
                  (fun kv => { policyId := kv.1, passed := kv.2.1, report := kv.2.2 }) }
            match svc.issue token_claims with
            | Except.error e =>
              (Except.error (AsError.tokenIssuanceFailed e),
               Event.verifierEvaluated :: rd.2 ++
                 [Event.policyEvaluated, Event.tokenIssue token_claims])
            | Except.ok attestation_results_token =>
              (Except.ok attestation_results_token,
               Event.verifierEvaluated :: rd.2 ++
                 [Event.policyEvaluated, Event.tokenIssue token_claims])

/-- Embedding of the `Attest` trait's default `remove_policy` body from
`api/src/attestation/mod.rs`, which is unconditionally
`bail!("Remove Policy API is unimplemented")`; neither `AttestationService`
in `attestation-service/src/lib.rs` nor anything else in the shown sources
overrides it. -/
def Attest.remove_policy (_policy_id : String) : Except String Unit :=
  Except.error "Remove Policy API is unimplemented"

/-- A sample raw claims tree, `{"measurement": "abc123"}`. -/
def demoRawClaims : JValue :=
  JValue.obj (JObj.cons "measurement" (JValue.str "abc123") JObj.nil)

/-- A verifier that accepts any evidence and returns `demoRawClaims`. -/
def demoVerifier : VerifierFun := fun _ _ _ => Except.ok demoRawClaims

/-- A fully working service: every TEE variant maps to `demoVerifier`, the
reference store holds `abc123` for `sample.measurement`, the policy engine
passes every requested policy, and the token broker issues `"token"`. -/
def demoService : AttestationService where
  to_verifier := fun _ => some demoVerifier
  get_digests := fun k =>
    if k = "sample.measurement" then Except.ok ["abc123"] else Except.ok []
  policy_evaluate := fun _ _ ids =>
    Except.ok (ids.map (fun i => (i, (true, "ok"))))
  issue := fun _ => Except.ok "token"

/-- Like `demoService`, but the policy engine always fails. -/
def failingPolicyService : AttestationService where
  to_verifier := fun _ => some demoVerifier
  get_digests := fun _ => Except.ok []
  policy_evaluate := fun _ _ _ => Except.error "policy p2 not found"
  issue := fun _ => Except.ok "token"

/-- Like `demoService`, but with no verifier registered for any variant. -/
def noVerifierService : AttestationService where
  to_verifier := fun _ => none
  get_digests := fun _ => Except.ok []
  policy_evaluate := fun _ _ ids =>
    Except.ok (ids.map (fun i => (i, (true, "ok"))))
  issue := fun _ => Except.ok "token"

/-- Folding `update` over a material list appends the materials, in order,
to the context's byte stream. -/
theorem foldl_update_buf (l : List (List Nat)) (b : List Nat) :
    (l.foldl Sha384Ctx.update ⟨b⟩).buf = b ++ l.flatten := by
  induction l generalizing b with
  | nil => simp
  | cons m tl ih =>
    show ((tl.foldl Sha384Ctx.update ⟨b ++ m⟩).buf) = _
    rw [ih]
    simp

/-- A big-endian byte rendering on `n` bytes has length `n`. -/
theorem length_toBytesBE (n x : Nat) : (toBytesBE n x).length = n := by
  simp [toBytesBE]

/-- Every SHA-384 digest is 48 bytes (384 bits) long. -/
theorem length_sha384 (msg : List Nat) : (sha384 msg).length = 48 := by
  simp [sha384, length_toBytesBE]

/-- On a non-empty material list, `accumulate_hash` is the SHA-384 of the
in-order concatenation of the materials. -/
theorem accumulate_hash_flatten (l : List (List Nat)) (h : l ≠ []) :
    accumulate_hash l = some (sha384 l.flatten) := by
  cases l with
  | nil => exact absurd rfl h
  | cons m tl =>
    show some (Sha384Ctx.finalize (tl.foldl Sha384Ctx.update ⟨[] ++ m⟩)) = _
    rw [Sha384Ctx.finalize, foldl_update_buf]
    simp

/-- C3: `accumulate_hash` on the empty material list is `None` (absence);
on a non-empty list it is the present digest of one streaming SHA-384
context fed every blob in list order and finalized once, 48 bytes (384
bits) long; and `accumulate_hash [b""]` is a present digest (of the empty
byte string), distinct from the absence returned for `[]`. -/
theorem accumulate_hash_c3 :
    accumulate_hash [] = none
    ∧ (∀ l : List (List Nat), l ≠ [] →
        accumulate_hash l = some ((l.foldl Sha384Ctx.update Sha384Ctx.new).finalize)
        ∧ ∀ d, accumulate_hash l = some d → d.length = 48)
    ∧ accumulate_hash [[]] = some (sha384 [])
    ∧ accumulate_hash [[]] ≠ accumulate_hash [] := by
  refine ⟨rfl, fun l hl => ⟨?_, ?_⟩, rfl, ?_⟩
  · cases l with
    | nil => exact absurd rfl hl
    | cons m tl => rfl
  · intro d hd
    rw [accumulate_hash_flatten l hl] at hd
    cases hd
    exact length_sha384 _
  · intro h
    simp [accumulate_hash] at h

/-- Witness for C3 at the concrete material list `[[42]]`. -/
theorem accumulate_hash_c3_witness :
    (([[42]] : List (List Nat)) ≠ [])
    ∧ (accumulate_hash [[42]]
         = some ((([[42]] : List (List Nat)).foldl Sha384Ctx.update Sha384Ctx.new).finalize)
       ∧ ∀ d, accumulate_hash [[42]] = some d → d.length = 48) :=
  ⟨by decide, accumulate_hash_c3.2.1 [[42]] (by decide)⟩

/-- C7 counterexample: the claim's universal order-sensitivity fails on the
code. The lists `[b"", b"x"]` and `[b"x", b""]` are distinct permutations
of each other (a genuinely different order of the same non-empty material
list), yet the streaming hash sees the same byte stream, so
`accumulate_hash` returns the identical digest. -/
theorem accumulate_hash_c7_counterexample :
    (([[], [120]] : List (List Nat)).Perm [[120], []])
    ∧ (([[], [120]] : List (List Nat)) ≠ [[120], []])
    ∧ accumulate_hash [[], [120]] = accumulate_hash [[120], []] :=
  ⟨by decide, by decide, rfl⟩

/-- C7 amended: `accumulate_hash` is deterministic (a pure function of the
material list), performs no sorting or normalization of the input order,
and is order-sensitive in the existential sense of spec section 8.1: there
is a non-trivial pair of permuted non-empty lists with different digests,
here `[b"a", b"b"]` against `[b"b", b"a"]`. -/
theorem accumulate_hash_c7_amended :
    (∀ l : List (List Nat), accumulate_hash l = accumulate_hash l)
    ∧ (([[97], [98]] : List (List Nat)).Perm [[98], [97]])
    ∧ accumulate_hash [[97], [98]] ≠ accumulate_hash [[98], [97]] :=
  ⟨fun _ => rfl, by decide, by decide⟩

/-- C10: the digest depends only on the byte concatenation of the material
blobs — any two non-empty lists with byte-for-byte equal concatenations
receive the same digest. -/
theorem accumulate_hash_concat_only (l1 l2 : List (List Nat))
    (h1 : l1 ≠ []) (h2 : l2 ≠ []) (hj : l1.flatten = l2.flatten) :
    accumulate_hash l1 = accumulate_hash l2 := by
  rw [accumulate_hash_flatten l1 h1, accumulate_hash_flatten l2 h2, hj]

/-- Witness for C10 at `[b"ab"]` against `[b"a", b"b"]`. -/
theorem accumulate_hash_concat_only_witness :
    (([[97, 98]] : List (List Nat)) ≠ [])
    ∧ (([[97], [98]] : List (List Nat)) ≠ [])
    ∧ ([[97, 98]] : List (List Nat)).flatten = ([[97], [98]] : List (List Nat)).flatten
    ∧ accumulate_hash [[97, 98]] = accumulate_hash [[97], [98]] :=
  ⟨by decide, by decide, by decide,
   accumulate_hash_concat_only [[97, 98]] [[97], [98]] (by decide) (by decide) (by decide)⟩

/-- C9 counterexample: in the shown sources `remove_policy` is the `Attest`
trait's default body, which unconditionally bails, so calling it with a
`PolicyId` that names no stored policy does not return success. -/
theorem remove_policy_c9_counterexample :
    Attest.remove_policy "no-such-policy" ≠ Except.ok () := by
  simp [Attest.remove_policy]

/-- C9 amended: `remove_policy` returns the error
`"Remove Policy API is unimplemented"` for every `PolicyId`, present or
absent, because only the `Attest` trait's default body exists in the shown
sources. -/
theorem remove_policy_c9_amended (policy_id : String) :
    Attest.remove_policy policy_id = Except.error "Remove Policy API is unimplemented" :=
  rfl

deriving instance DecidableEq for Except

/-- Looking up after a `HashMap::insert`-style insertion sees the new value
under the inserted key and is untouched elsewhere. -/
theorem lookupA_insertA (m : List (String × List String)) (k : String)
    (v : List String) (k2 : String) :
    lookupA (insertA m k v) k2 = if k = k2 then some v else lookupA m k2 := by
  induction m with
  | nil => simp [insertA, lookupA]
  | cons hd tl ih =>
    obtain ⟨k3, v3⟩ := hd
    by_cases h3 : k3 = k
    · subst h3
      simp only [insertA, if_pos rfl, lookupA]
      by_cases h2 : k3 = k2 <;> simp [lookupA, h2]
    · simp only [insertA, if_neg h3, lookupA, ih]
      by_cases h2 : k3 = k2
      · have hk2 : k ≠ k2 := fun hk => h3 (h2.trans hk.symm)
        simp [h2, hk2]
      · simp [h2]

/-- The reference-data loop, on success, records one lookup event per key
in order, and the resulting map is pointwise the reference store's answer
on the processed keys and the starting map elsewhere. -/
theorem grdGo_ok (svc : AttestationService) (keys : List String) :
    ∀ (acc m : List (String × List String)) (evs : List Event),
      grdGo svc acc keys = (Except.ok m, evs) →
      evs = keys.map Event.referenceLookup
      ∧ ∀ k, lookupA m k =
          if k ∈ keys then (svc.get_digests k).toOption else lookupA acc k := by
  induction keys with
  | nil =>
    intro acc m evs h
    simp only [grdGo, Prod.mk.injEq, Except.ok.injEq] at h
    obtain ⟨h1, h2⟩ := h
    subst h1; subst h2
    simp
  | cons k ks ih =>
    intro acc m evs h
    cases hgd : svc.get_digests k with
    | error e => simp [grdGo, hgd] at h
    | ok v =>
      simp only [grdGo, hgd, Prod.mk.injEq] at h
      obtain ⟨h1, h2⟩ := h
      have hp : grdGo svc (insertA acc k v) ks
          = (Except.ok m, (grdGo svc (insertA acc k v) ks).2) := by
        rw [← h1]
      obtain ⟨he, hl⟩ := ih (insertA acc k v) m _ hp
      constructor
      · rw [← h2, he]
        simp
      · intro k2
        rw [hl k2, lookupA_insertA]
        by_cases hmem : k2 ∈ ks
        · simp [hmem, List.mem_cons]
        · by_cases hk : k = k2
          · subst hk
            simp [hmem, hgd, Except.toOption]
          · have hk2 : k2 ≠ k := fun hh => hk hh.symm
            simp [hmem, hk2, hk, List.mem_cons]

/-- C4: when `get_reference_data` succeeds, a reference lookup was
performed for every normalized-claims key with no omissions (the event log
is exactly one lookup per key), the assembled map answers exactly on that
key set — a key whose lookup returned the empty digest list is still
present, mapped to `some []`, and keys outside the set are absent — and
the map's content is independent of the order the keys are looked up. -/
theorem get_reference_data_c4 (svc : AttestationService) (keys : List String)
    (m : List (String × List String)) (evs : List Event)
    (h : get_reference_data svc keys = (Except.ok m, evs)) :
    evs = keys.map Event.referenceLookup
    ∧ (∀ k, lookupA m k = if k ∈ keys then (svc.get_digests k).toOption else none)
    ∧ (∀ keys2 m2 evs2, keys.Perm keys2 →
        get_reference_data svc keys2 = (Except.ok m2, evs2) →
        ∀ k, lookupA m2 k = lookupA m k) := by
  obtain ⟨he, hl⟩ := grdGo_ok svc keys [] m evs h
  refine ⟨he, fun k => by rw [hl k]; simp [lookupA], ?_⟩
  intro keys2 m2 evs2 hperm h2 k
  obtain ⟨_, hl2⟩ := grdGo_ok svc keys2 [] m2 evs2 h2
  rw [hl2 k, hl k, lookupA]
  simp [hperm.mem_iff]

/-- Witness for C4: two keys against the demo reference store, one with a
stored digest and one whose lookup returns the empty set yet is still
inserted. -/
theorem get_reference_data_c4_witness :
    (get_reference_data demoService ["sample.measurement", "other"]
       = (Except.ok [("sample.measurement", ["abc123"]), ("other", [])],
          [Event.referenceLookup "sample.measurement", Event.referenceLookup "other"]))
    ∧ ([Event.referenceLookup "sample.measurement", Event.referenceLookup "other"]
         = (["sample.measurement", "other"] : List String).map Event.referenceLookup
       ∧ (∀ k, lookupA [("sample.measurement", ["abc123"]), ("other", [])] k
            = if k ∈ (["sample.measurement", "other"] : List String)
              then (demoService.get_digests k).toOption else none)
       ∧ (∀ keys2 m2 evs2,
            (["sample.measurement", "other"] : List String).Perm keys2 →
            get_reference_data demoService keys2 = (Except.ok m2, evs2) →
            ∀ k, lookupA m2 k
              = lookupA [("sample.measurement", ["abc123"]), ("other", [])] k)) :=
  ⟨by decide, get_reference_data_c4 demoService _ _ _ (by decide)⟩

/-- C5: with no verifier registered for the caller's TEE variant,
`evaluate` fails with the unsupported-TEE error, and its collaborator log
is empty — no verifier evaluation, no reference lookup, no policy
evaluation and no token issuance took place. -/
theorem evaluate_unsupported_tee_c5 (svc : AttestationService)
    (evidence : List Nat) (tee : Tee) (runtime_data init_data : List (List Nat))
    (policy_ids : List String) (h : svc.to_verifier tee = none) :
    evaluate svc evidence tee runtime_data init_data policy_ids
      = (Except.error AsError.unsupportedTee, []) := by
  simp [evaluate, h]

/-- Witness for C5 on a service with no registered verifiers. -/
theorem evaluate_unsupported_tee_c5_witness :
    noVerifierService.to_verifier Tee.sgx = none
    ∧ evaluate noVerifierService [] Tee.sgx [] [] ["p1"]
        = (Except.error AsError.unsupportedTee, []) :=
  ⟨rfl, evaluate_unsupported_tee_c5 noVerifierService [] Tee.sgx [] [] ["p1"] rfl⟩

/-- C1: whenever `evaluate` succeeds, the claims payload handed to the
token broker is exactly the aggregate of the caller-selected policy ids
(`"policy-ids"`, equal to the `policy_ids` argument), the flattened
normalized claims (`"tcb-status"`), and one `"evaluation-reports"` entry
per policy-engine result entry carrying that policy's pass/fail boolean
and evaluation report; under the policy adapter's contract (its result map
is keyed by the requested ids) that is one entry per requested policy. -/
theorem evaluate_token_payload_c1 (svc : AttestationService) (evidence : List Nat)
    (tee : Tee) (runtime_data init_data : List (List Nat)) (policy_ids : List String)
    (tok : String) (evs : List Event)
    (h : evaluate svc evidence tee runtime_data init_data policy_ids = (Except.ok tok, evs))
    (hc : ∀ refs tcb ids out, svc.policy_evaluate refs tcb ids = Except.ok out →
        out.map Prod.fst = ids) :
    ∃ vf raw flat refs out,
      svc.to_verifier tee = some vf
      ∧ vf evidence (accumulate_hash runtime_data) (accumulate_hash init_data)
          = Except.ok raw
      ∧ flatten_claims tee raw = Except.ok flat
      ∧ (get_reference_data svc (flat.map Prod.fst)).1 = Except.ok refs
      ∧ svc.policy_evaluate refs (serdeJsonToString flat) policy_ids = Except.ok out
      ∧ out.map Prod.fst = policy_ids
      ∧ svc.issue
          { policyIds := policy_ids, tcbStatus := flat,
            evaluationReports := out.map
              (fun kv => { policyId := kv.1, passed := kv.2.1, report := kv.2.2 }) }
          = Except.ok tok
      ∧ Event.tokenIssue
          { policyIds := policy_ids, tcbStatus := flat,
            evaluationReports := out.map
              (fun kv => { policyId := kv.1, passed := kv.2.1, report := kv.2.2 }) }
          ∈ evs := by
  unfold evaluate at h
  cases hv : svc.to_verifier tee with
  | none => rw [hv] at h; exact absurd h (by simp)
  | some vf =>
    rw [hv] at h
    dsimp only at h
    cases hraw : vf evidence (accumulate_hash runtime_data) (accumulate_hash init_data) with
    | error e => rw [hraw] at h; exact absurd h (by simp)
    | ok raw =>
      rw [hraw] at h
      dsimp only at h
      set flat := (leafPaths raw).map (fun pv => (joinPath (teeName tee :: pv.1), pv.2))
        with hflatdef
      have hfl : flatten_claims tee raw = Except.ok flat := by rw [hflatdef]; rfl
      rw [hfl] at h
      dsimp only at h
      cases hrd : (get_reference_data svc (flat.map Prod.fst)).1 with
      | error e => rw [hrd] at h; exact absurd h (by simp)
      | ok refs =>
        rw [hrd] at h
        dsimp only at h
        cases hpe : svc.policy_evaluate refs (serdeJsonToString flat) policy_ids with
        | error e => rw [hpe] at h; exact absurd h (by simp)
        | ok out =>
          rw [hpe] at h
          dsimp only at h
          cases hiss : svc.issue
              { policyIds := policy_ids, tcbStatus := flat,
                evaluationReports := out.map
                  (fun kv => { policyId := kv.1, passed := kv.2.1, report := kv.2.2 }) } with
          | error e => rw [hiss] at h; exact absurd h (by simp)
          | ok t =>
            rw [hiss] at h
            simp only [Prod.mk.injEq, Except.ok.injEq] at h
            obtain ⟨h1, h2⟩ := h
            subst h1
            subst h2
            exact ⟨vf, raw, flat, refs, out, rfl, hraw, hfl, hrd, hpe,
              hc _ _ _ _ hpe, hiss, by simp⟩

/-- Witness for C1: the full successful demo pipeline at TEE `sample`. -/
theorem evaluate_token_payload_c1_witness :
    ∃ vf raw flat refs out,
      demoService.to_verifier Tee.sample = some vf
      ∧ vf [] (accumulate_hash []) (accumulate_hash []) = Except.ok raw
      ∧ flatten_claims Tee.sample raw = Except.ok flat
      ∧ (get_reference_data demoService (flat.map Prod.fst)).1 = Except.ok refs
      ∧ demoService.policy_evaluate refs (serdeJsonToString flat) ["p1"] = Except.ok out
      ∧ out.map Prod.fst = ["p1"]
      ∧ demoService.issue
          { policyIds := ["p1"], tcbStatus := flat,
            evaluationReports := out.map
              (fun kv => { policyId := kv.1, passed := kv.2.1, report := kv.2.2 }) }
          = Except.ok "token"
      ∧ Event.tokenIssue
          { policyIds := ["p1"], tcbStatus := flat,
            evaluationReports := out.map
              (fun kv => { policyId := kv.1, passed := kv.2.1, report := kv.2.2 }) }
          ∈ [Event.verifierEvaluated, Event.referenceLookup "sample.measurement",
             Event.policyEvaluated,
             Event.tokenIssue
               { policyIds := ["p1"], tcbStatus := [("sample.measurement", "abc123")],
                 evaluationReports := [{ policyId := "p1", passed := true, report := "ok" }] }] :=
  evaluate_token_payload_c1 demoService [] Tee.sample [] [] ["p1"] "token"
    [Event.verifierEvaluated, Event.referenceLookup "sample.measurement",
     Event.policyEvaluated,
     Event.tokenIssue
       { policyIds := ["p1"], tcbStatus := [("sample.measurement", "abc123")],
         evaluationReports := [{ policyId := "p1", passed := true, report := "ok" }] }]
    (by decide)
    (fun refs tcb ids out ho => by
      have ho2 : Except.ok (ids.map (fun i => (i, (true, "ok")))) = Except.ok out := ho
      injection ho2 with hh
      subst hh
      simp only [List.map_map]
      have hcomp : (Prod.fst ∘ fun i : String => (i, true, "ok")) = id := rfl
      rw [hcomp, List.map_id])

/-- C2: if the policy engine's batch evaluation fails, the whole `evaluate`
call returns that failure wrapped as `PolicyEvaluationFailed`, the result
carries no partial per-policy outcomes (it is the bare error), and the
token broker is never invoked — no token-issue event appears in the
collaborator log. -/
theorem evaluate_policy_failure_c2 (svc : AttestationService) (evidence : List Nat)
    (tee : Tee) (runtime_data init_data : List (List Nat)) (policy_ids : List String)
    (vf : VerifierFun) (raw : JValue) (flat : List (String × String))
    (refs : List (String × List String)) (evs1 : List Event) (e : String)
    (hv : svc.to_verifier tee = some vf)
    (hraw : vf evidence (accumulate_hash runtime_data) (accumulate_hash init_data)
        = Except.ok raw)
    (hflat : flatten_claims tee raw = Except.ok flat)
    (hrefs : get_reference_data svc (flat.map Prod.fst) = (Except.ok refs, evs1))
    (hp : svc.policy_evaluate refs (serdeJsonToString flat) policy_ids = Except.error e) :
    evaluate svc evidence tee runtime_data init_data policy_ids
      = (Except.error (AsError.policyEvaluationFailed e),
         Event.verifierEvaluated :: evs1 ++ [Event.policyEvaluated])
    ∧ ∀ payload, Event.tokenIssue payload
        ∉ Event.verifierEvaluated :: evs1 ++ [Event.policyEvaluated] := by
  constructor
  · unfold evaluate
    rw [hv]
    dsimp only
    rw [hraw]
    dsimp only
    rw [hflat]
    dsimp only
    rw [hrefs]
    dsimp only
    rw [hp]
  · obtain ⟨he, _⟩ := grdGo_ok svc (flat.map Prod.fst) [] refs evs1 hrefs
    subst he
    intro payload
    simp

/-- Witness for C2: a two-policy batch where the engine fails; the demo
pipeline aborts with `PolicyEvaluationFailed` and never reaches the token
broker. -/
theorem evaluate_policy_failure_c2_witness :
    failingPolicyService.policy_evaluate [("sample.measurement", [])]
        (serdeJsonToString [("sample.measurement", "abc123")]) ["p1", "p2"]
      = Except.error "policy p2 not found"
    ∧ (evaluate failingPolicyService [] Tee.sample [] [] ["p1", "p2"]
         = (Except.error (AsError.policyEvaluationFailed "policy p2 not found"),
            Event.verifierEvaluated :: [Event.referenceLookup "sample.measurement"]
              ++ [Event.policyEvaluated])
       ∧ ∀ payload, Event.tokenIssue payload
           ∉ Event.verifierEvaluated :: [Event.referenceLookup "sample.measurement"]
               ++ [Event.policyEvaluated]) :=
  ⟨rfl, evaluate_policy_failure_c2 failingPolicyService [] Tee.sample [] [] ["p1", "p2"]
     demoVerifier demoRawClaims [("sample.measurement", "abc123")]
     [("sample.measurement", [])] [Event.referenceLookup "sample.measurement"]
     "policy p2 not found" rfl rfl rfl (by decide) rfl⟩

/-- The byte content of a single-separator string. -/
theorem dot_data : ".".data = ['.'] := rfl

/-- A joined path starting with segment `a` is `a` followed by either
nothing or a separator-led remainder. -/
theorem joinPath_data (a : String) (p : List String) :
    ∃ tail, (joinPath (a :: p)).data = a.data ++ tail
      ∧ (tail = [] ∨ ∃ r, tail = '.' :: r) := by
  cases p with
  | nil => exact ⟨[], by simp [joinPath], Or.inl rfl⟩
  | cons b rest =>
    refine ⟨'.' :: (joinPath (b :: rest)).data, ?_, Or.inr ⟨_, rfl⟩⟩
    simp [joinPath, String.data_append, dot_data]

/-- Taking the prefix before the first separator of `a ++ tail` recovers
`a` when `a` is separator-free and `tail` is empty or separator-led. -/
theorem takeWhile_append_nodot (a tail : List Char)
    (ha : ∀ c ∈ a, c ≠ '.') (ht : tail = [] ∨ ∃ r, tail = '.' :: r) :
    (a ++ tail).takeWhile (fun c => c != '.') = a := by
  induction a with
  | nil =>
    rcases ht with h | ⟨r, h⟩ <;> subst h <;> simp [List.takeWhile]
  | cons c a ih =>
    have hc : c ≠ '.' := ha c (List.mem_cons_self c a)
    have hb : (c != '.') = true := by simp [hc]
    simp only [List.cons_append, List.takeWhile, hb, List.cons.injEq, true_and]
    exact ih (fun x hx => ha x (List.mem_cons_of_mem _ hx))

/-- No TEE variant name contains the path separator. -/
theorem teeName_no_dot : ∀ t : Tee, ∀ c ∈ (teeName t).data, c ≠ '.' := by
  intro t
  cases t <;> decide

/-- TEE variant names are pairwise distinct. -/
theorem teeName_inj : ∀ t1 t2 : Tee, teeName t1 = teeName t2 → t1 = t2 := by
  intro t1 t2
  cases t1 <;> cases t2 <;> decide

/-- C6: `flatten_claims` prefixes every flattened key with the TEE variant
name, so for two different TEE variants — even on raw claim trees with
identical leaf-path names — the normalized key sets are disjoint. -/
theorem flatten_claims_cross_tee_disjoint (t1 t2 : Tee) (hne : t1 ≠ t2)
    (raw1 raw2 : JValue) (flat1 flat2 : List (String × String))
    (h1 : flatten_claims t1 raw1 = Except.ok flat1)
    (h2 : flatten_claims t2 raw2 = Except.ok flat2) :
    List.Disjoint (flat1.map Prod.fst) (flat2.map Prod.fst) := by
  have hf1 : ((leafPaths raw1).map
      (fun pv => (joinPath (teeName t1 :: pv.1), pv.2))) = flat1 := by
    injection h1 with hh
  have hf2 : ((leafPaths raw2).map
      (fun pv => (joinPath (teeName t2 :: pv.1), pv.2))) = flat2 := by
    injection h2 with hh
  subst hf1
  subst hf2
  intro k hk1 hk2
  simp only [List.map_map, List.mem_map, Function.comp] at hk1 hk2
  obtain ⟨pv1, _, hk1e⟩ := hk1
  obtain ⟨pv2, _, hk2e⟩ := hk2
  obtain ⟨tail1, hd1, ht1⟩ := joinPath_data (teeName t1) pv1.1
  obtain ⟨tail2, hd2, ht2⟩ := joinPath_data (teeName t2) pv2.1
  have e1 : k.data = (teeName t1).data ++ tail1 := by rw [← hk1e]; exact hd1
  have e2 : k.data = (teeName t2).data ++ tail2 := by rw [← hk2e]; exact hd2
  have tw1 := takeWhile_append_nodot (teeName t1).data tail1 (teeName_no_dot t1) ht1
  have tw2 := takeWhile_append_nodot (teeName t2).data tail2 (teeName_no_dot t2) ht2
  have hsame : (teeName t1).data = (teeName t2).data := by
    rw [← tw1, ← tw2, ← e1, ← e2]
  exact hne (teeName_inj t1 t2 (String.ext hsame))

/-- Witness for C6: the `sample` and `tdx` variants over the same raw tree
with the same leaf name produce disjoint key sets. -/
theorem flatten_claims_cross_tee_disjoint_witness :
    Tee.sample ≠ Tee.tdx
    ∧ flatten_claims Tee.sample demoRawClaims
        = Except.ok [("sample.measurement", "abc123")]
    ∧ flatten_claims Tee.tdx demoRawClaims
        = Except.ok [("tdx.measurement", "abc123")]
    ∧ List.Disjoint ([("sample.measurement", "abc123")].map Prod.fst)
        ([("tdx.measurement", "abc123")].map Prod.fst) :=
  ⟨by decide, rfl, rfl,
   flatten_claims_cross_tee_disjoint Tee.sample Tee.tdx (by decide)
     demoRawClaims demoRawClaims _ _ rfl rfl⟩
